import Mathlib

/-!
# The usage-log store of `internal/database/sqlite.go`

A shallow embedding of package `database`: the process-wide handle and its
once-only gate, the `usage_logs` table, the writer, the cost back-fill and the
read queries.

Modelling conventions.

* The table is the list of its rows in storage (rowid) order.  A column holds a
  value of its declared type or SQL `NULL`, so every column but the primary key
  is an `Option`.
* `float64` costs are exact rationals: no rounding, no infinities, no NaN.
* Caller-supplied integers are mathematical integers; SQLite's `SUM` over an
  integer column keeps a signed 64-bit running total and raises
  "integer overflow" when that total leaves the range, which `sumInt64`
  reproduces.  Row counts and row ids are not bounded.
* What lives outside the package is a parameter, collected in `Env`: the
  pricing function, the text layout of Go's `Format`, the driver's decoding of
  `DATETIME` text, and SQLite's `strftime` and `datetime`.
* Operating-system and driver outcomes during `Init` are read from a `Disk`.
* Where SQL leaves the order of ties open, the model keeps storage order.
-/

namespace Database

/-! ## Data model -/

/-- Errors that the package returns or passes through. -/
inductive Error where
  /-- The `fmt.Errorf("database not initialized")` of the public operations. -/
  | notInitialized
  /-- The `fmt.Errorf("db not initialized")` of `recalculateAllCosts`. -/
  | dbNotInitialized
  /-- SQLite: table `usage_logs` does not exist. -/
  | noSuchTable
  /-- SQLite: `SUM` left the signed 64-bit range. -/
  | integerOverflow
  /-- Package `sql`: `Scan` got `dests` destinations for `columns` columns. -/
  | scanArity (columns dests : Nat)
  /-- Package `sql`: the value of column `index` cannot be stored in its destination. -/
  | scanColumn (index : Nat)
  /-- A failure reported by the operating system or the driver. -/
  | os (msg : String)
  deriving DecidableEq, Repr

/-- Go `time.Time` as this package observes it: an instant given by whole
seconds since the Unix epoch and the nanoseconds within the second, together
with the zone offset of its location. -/
structure Time where
  sec : Int
  nsec : Nat
  offset : Int
  deriving DecidableEq, Repr

/-- Method `Time.UTC`: the same instant with the location set to UTC. -/
def Time.UTC (t : Time) : Time := { t with offset := 0 }

/-- The Go struct `UsageLog`. -/
structure UsageLog where
  ID : Int
  Timestamp : Time
  APIKey : String
  Model : String
  InputTokens : Int
  OutputTokens : Int
  TotalTokens : Int
  IsFailure : Bool
  Source : String
  DurationMs : Int
  PromptText : String
  CompletionText : String
  CostUSD : ℚ
  deriving DecidableEq

/-- One row of table `usage_logs`, column by column as in `CREATE TABLE`. -/
structure Row where
  id : Int
  timestamp : Option String
  api_key : Option String
  model : Option String
  input_tokens : Option Int
  output_tokens : Option Int
  total_tokens : Option Int
  is_failure : Option Bool
  source : Option String
  duration_ms : Option Int
  prompt_text : Option String
  completion_text : Option String
  cost_usd : Option ℚ
  deriving DecidableEq

/-- The content of table `usage_logs`. -/
abbrev Table := List Row

/-- What a `*sql.DB` handle gives access to: the table, when it exists. -/
structure DB where
  usage_logs : Option Table
  deriving DecidableEq

/-- The package-level variables `db` and `once`. -/
structure State where
  /-- The handle `db`; `none` is the nil pointer. -/
  db : Option DB
  /-- Whether `once.Do` has already run its function. -/
  once : Bool
  deriving DecidableEq

/-- The package state when the process starts. -/
def State.start : State := ⟨none, false⟩

/-- The collaborators outside the package. -/
structure Env where
  /-- The function `pricing.CalculateCost`. -/
  CalculateCost : String → Int → Int → ℚ
  /-- The text that layout `"2006-01-02 15:04:05"` gives for a wall-clock second. -/
  layout : Int → String
  /-- The driver's decoding of the text of a `DATETIME` column into a `time.Time`. -/
  parseTime : String → Option Time
  /-- SQLite `strftime(format, timevalue)` on a non-NULL time value. -/
  strftime : String → String → Option String
  /-- SQLite `datetime('now', modifier)` when the statement runs at instant `now`. -/
  datetime : Int → String → Option String

/-- Method `Time.Format` with the layout `"2006-01-02 15:04:05"`: the layout has
no fractional seconds and no zone, so the text depends on the wall-clock second only. -/
def Time.Format (env : Env) (t : Time) : String := env.layout (t.sec + t.offset)

/-- The outcomes of the operating-system and driver steps of `Init`, and what
the database file holds when it is opened. -/
structure Disk where
  /-- Outcome of `os.MkdirAll`. -/
  mkdirAll : Option Error
  /-- Outcome of `sql.Open`. -/
  sqlOpen : Option Error
  /-- Outcome of the `CREATE TABLE IF NOT EXISTS ...; CREATE INDEX ...` batch. -/
  createTable : Option Error
  /-- Table `usage_logs` as found in the file, if it is there. -/
  usage_logs : Option Table
  /-- Outcome of `tx.Commit` in the cost back-fill. -/
  commit : Option Error

/-! ## SQL building blocks -/

/-- A value in a result row. -/
inductive Value where
  | null
  | integer (i : Int)
  | real (q : ℚ)
  | text (s : String)
  deriving DecidableEq

/-- An integer column as a result value. -/
def Value.ofInt : Option Int → Value
  | none => .null
  | some i => .integer i

/-- A text column as a result value. -/
def Value.ofText : Option String → Value
  | none => .null
  | some s => .text s

/-- A boolean column as a result value: SQLite stores 0 and 1. -/
def Value.ofBool : Option Bool → Value
  | none => .null
  | some false => .integer 0
  | some true => .integer 1

/-- A real column as a result value. -/
def Value.ofReal : Option ℚ → Value
  | none => .null
  | some q => .real q

/-- Whether an integer fits a signed 64-bit word. -/
def inInt64 (x : Int) : Bool := decide (-(2 : Int) ^ 63 ≤ x) && decide (x < (2 : Int) ^ 63)

/-- SQLite `SUM` over an integer column, continued from running total `acc`
(`none` while no non-NULL value has been seen).  NULLs are skipped, the result is
NULL when nothing was added, and the statement fails with "integer overflow"
when the running total leaves the signed 64-bit range. -/
def sumInt64From : Option Int → List (Option Int) → Except Error (Option Int)
  | acc, [] => .ok acc
  | acc, none :: xs => sumInt64From acc xs
  | acc, some v :: xs =>
    if inInt64 (acc.getD 0 + v) then sumInt64From (some (acc.getD 0 + v)) xs
    else .error .integerOverflow

/-- SQLite `SUM` over an integer column. -/
def sumInt64 (xs : List (Option Int)) : Except Error (Option Int) := sumInt64From none xs

/-- SQLite `SUM` over real values, continued from `acc`: NULLs are skipped and
the result is NULL when nothing was added. -/
def sumRealFrom : Option ℚ → List (Option ℚ) → Option ℚ
  | acc, [] => acc
  | acc, none :: xs => sumRealFrom acc xs
  | acc, some v :: xs => sumRealFrom (some (acc.getD 0 + v)) xs

/-- SQLite `SUM` over real values. -/
def sumReal (xs : List (Option ℚ)) : Option ℚ := sumRealFrom none xs

/-- The aggregate `SUM(CASE WHEN cond THEN 1 ELSE 0 END)` wrapped in `COALESCE(_, 0)`:
the number of rows on which `cond` is true (NULL counts as not true). -/
def sumCase (cond : Row → Bool) (rows : List Row) : Int := (rows.filter cond).length

/-- The order of SQLite on a text column under the default collation, with NULL
before every text. -/
def nullsFirstLe : Option String → Option String → Prop
  | none, _ => True
  | some _, none => False
  | some a, some b => a ≤ b

instance : DecidableRel nullsFirstLe := fun a b =>
  match a, b with
  | none, _ => isTrue trivial
  | some _, none => isFalse (fun h => h)
  | some a, some b => inferInstanceAs (Decidable (a ≤ b))

/-- The clause `LIMIT limit OFFSET offset`: a negative offset skips nothing and
a negative limit does not bound the result. -/
def limitOffset {α : Type} (limit offset : Int) (rows : List α) : List α :=
  let rest := rows.drop offset.toNat
  if limit < 0 then rest else rest.take limit.toNat

/-- What a Go caller holds after a call returning a slice and an error: the
slice, which is nil when the error is set. -/
def returned {α : Type} : Except Error (List α) → List α
  | .ok l => l
  | .error _ => []

/-- Run the table part of an operation through the handle checks shared by the
public operations: nil handle, then existence of the table. -/
def withTable {α : Type} (st : State) (f : Table → Except Error α) : Except Error α :=
  match st.db with
  | none => .error .notInitialized
  | some h =>
    match h.usage_logs with
    | none => .error .noSuchTable
    | some t => f t

/-- COALESCE with two arguments. -/
def coalesce : Value → Value → Value
  | .null, d => d
  | v, _ => v

/-- A loop that converts the elements one by one and returns at the first error. -/
def collect {α β : Type} (f : α → Except Error β) : List α → Except Error (List β)
  | [] => .ok []
  | a :: rest =>
    match f a with
    | .error e => .error e
    | .ok b =>
      match collect f rest with
      | .error e => .error e
      | .ok bs => .ok (b :: bs)

/-! ## Scanning a result row

The conversions of `Rows.Scan` for the kinds of value the queries of this
package produce. -/

/-- Destination `*int64`. -/
def scanInt64 : Value → Option Int
  | .integer i => some i
  | _ => none

/-- Destination `*string`. -/
def scanString : Value → Option String
  | .text s => some s
  | _ => none

/-- Destination `*bool`: 0 and 1 convert, NULL does not. -/
def scanBool : Value → Option Bool
  | .integer 0 => some false
  | .integer 1 => some true
  | _ => none

/-- Destination `*float64`. -/
def scanFloat64 : Value → Option ℚ
  | .real q => some q
  | .integer i => some i
  | _ => none

/-- Destination `*time.Time`: the driver decodes the text of a `DATETIME`
column; text it cannot decode stays a string, which does not convert, nor does NULL. -/
def scanTime (env : Env) : Value → Option Time
  | .text s => env.parseTime s
  | _ => none

/-- A converted column, or the `Scan` error for column `index`. -/
def column {α : Type} (index : Nat) : Option α → Except Error α
  | some a => .ok a
  | none => .error (.scanColumn index)

/-- The call `rows.Scan(&log.ID, &ts, &log.APIKey, ..., &log.CostUSD)` followed by
`log.Timestamp = ts`: thirteen destinations, shared by both activity queries.
`Scan` first compares the number of destinations with the number of columns. -/
def scanUsageLog (env : Env) (cols : List Value) : Except Error UsageLog :=
  match cols with
  | [c0, c1, c2, c3, c4, c5, c6, c7, c8, c9, c10, c11, c12] => do
    let id ← column 0 (scanInt64 c0)
    let ts ← column 1 (scanTime env c1)
    let apiKey ← column 2 (scanString c2)
    let model ← column 3 (scanString c3)
    let input ← column 4 (scanInt64 c4)
    let output ← column 5 (scanInt64 c5)
    let total ← column 6 (scanInt64 c6)
    let isFailure ← column 7 (scanBool c7)
    let source ← column 8 (scanString c8)
    let duration ← column 9 (scanInt64 c9)
    let prompt ← column 10 (scanString c10)
    let completion ← column 11 (scanString c11)
    let cost ← column 12 (scanFloat64 c12)
    pure ⟨id, ts, apiKey, model, input, output, total, isFailure, source, duration,
      prompt, completion, cost⟩
  | _ => .error (.scanArity cols.length 13)

/-! ## Writer -/

/-- The id that `INTEGER PRIMARY KEY AUTOINCREMENT` gives the next row: one
more than the largest id in the table. -/
def nextId (t : Table) : Int := (t.map Row.id).foldl max 0 + 1

/-- The row that `InsertUsageLog` writes for `log` into table `t`. -/
def insertedRow (env : Env) (t : Table) (log : UsageLog) : Row :=
  let cost :=
    if log.CostUSD = 0 then env.CalculateCost log.Model log.InputTokens log.OutputTokens
    else log.CostUSD
  let ts := log.Timestamp.UTC.Format env
  { id := nextId t
    timestamp := some ts
    api_key := some log.APIKey
    model := some log.Model
    input_tokens := some log.InputTokens
    output_tokens := some log.OutputTokens
    total_tokens := some log.TotalTokens
    is_failure := some log.IsFailure
    source := some log.Source
    duration_ms := some log.DurationMs
    prompt_text := some log.PromptText
    completion_text := some log.CompletionText
    cost_usd := some cost }

/-- Function `InsertUsageLog`: the new package state and the returned error. -/
def InsertUsageLog (env : Env) (st : State) (log : UsageLog) : State × Option Error :=
  match st.db with
  | none => (st, some .notInitialized)
  | some h =>
    match h.usage_logs with
    | none => (st, some .noSuchTable)
    | some t => ({ st with db := some ⟨some (t ++ [insertedRow env t log])⟩ }, none)

/-! ## Activity queries -/

/-- The `WHERE 1=1 [AND model = ?] [AND is_failure = 0|1]` built from the filters. -/
def whereClause (modelFilter statusFilter : String) (r : Row) : Bool :=
  (if modelFilter ≠ "" then r.model == some modelFilter else true) &&
  (if statusFilter ≠ "" then
    if statusFilter = "success" then r.is_failure == some false
    else if statusFilter = "failure" then r.is_failure == some true
    else true
  else true)

/-- The clause `ORDER BY timestamp DESC`; NULL sorts last. -/
def orderByTimestampDesc (rows : List Row) : List Row :=
  rows.insertionSort (fun a b => nullsFirstLe b.timestamp a.timestamp)

/-- The first twelve columns selected by both activity queries. -/
def activityColumns (r : Row) : List Value :=
  [ .integer r.id,
    .ofText r.timestamp,
    coalesce (.ofText r.api_key) (.text ""),
    coalesce (.ofText r.model) (.text ""),
    coalesce (.ofInt r.input_tokens) (.integer 0),
    coalesce (.ofInt r.output_tokens) (.integer 0),
    coalesce (.ofInt r.total_tokens) (.integer 0),
    .ofBool r.is_failure,
    coalesce (.ofText r.source) (.text "unknown"),
    coalesce (.ofInt r.duration_ms) (.integer 0),
    coalesce (.ofText r.prompt_text) (.text ""),
    coalesce (.ofText r.completion_text) (.text "") ]

/-- The select list of `GetRecentActivity`: the twelve columns and `COALESCE(cost_usd, 0)`. -/
def recentColumns (r : Row) : List Value :=
  activityColumns r ++ [coalesce (.ofReal r.cost_usd) (.integer 0)]

/-- The select list of `GetAllActivity`: the twelve columns; `cost_usd` is not selected. -/
def allColumns (r : Row) : List Value := activityColumns r

/-- Function `GetRecentActivity`. -/
def GetRecentActivity (env : Env) (st : State) (limit offset : Int)
    (modelFilter statusFilter : String) : Except Error (List UsageLog) :=
  withTable st fun t =>
    collect (scanUsageLog env)
      ((limitOffset limit offset
        (orderByTimestampDesc (t.filter (whereClause modelFilter statusFilter)))).map
        recentColumns)

/-- Function `GetAllActivity`. -/
def GetAllActivity (env : Env) (st : State) (modelFilter statusFilter : String) :
    Except Error (List UsageLog) :=
  withTable st fun t =>
    collect (scanUsageLog env)
      ((orderByTimestampDesc (t.filter (whereClause modelFilter statusFilter))).map allColumns)

/-! ## Cost back-fill and start-up -/

/-- The call `rows.Scan(&id, &model, &input, &output)` of the back-fill loop: it
fails, and the loop continues with the next row, when a scanned column is NULL. -/
def backfillScan (r : Row) : Option (Int × String × Int × Int) :=
  match r.model, r.input_tokens, r.output_tokens with
  | some model, some input, some output => some (r.id, model, input, output)
  | _, _, _ => none

/-- The statement `UPDATE usage_logs SET cost_usd = ? WHERE id = ?`. -/
def updateCost (cost : ℚ) (id : Int) (t : Table) : Table :=
  t.map fun r => if r.id = id then { r with cost_usd := some cost } else r

/-- The loop of `recalculateAllCosts` over the rows read by the `SELECT`,
applying its updates to the table inside the transaction. -/
def backfillLoop (env : Env) : List Row → Table → Table
  | [], t => t
  | r :: rest, t =>
    match backfillScan r with
    | none => backfillLoop env rest t
    | some (id, model, input, output) =>
      backfillLoop env rest (updateCost (env.CalculateCost model input output) id t)

/-- Function `recalculateAllCosts`, with the outcome of `tx.Commit` given: the
new package state and the returned error.  The `SELECT`, `Begin`, `Prepare` and
the `UPDATE` executions are taken to succeed (an error of an `UPDATE` is dropped
by the code).  A failed commit leaves the table as it was (the deferred
`tx.Rollback`). -/
def recalculateAllCosts (env : Env) (commit : Option Error) (st : State) :
    State × Option Error :=
  match st.db with
  | none => (st, some .dbNotInitialized)
  | some h =>
    match h.usage_logs with
    | none => (st, some .noSuchTable)
    | some t =>
      match commit with
      | some e => (st, some e)
      | none => ({ st with db := some ⟨some (backfillLoop env t t)⟩ }, none)

/-- Function `Init`: the new package state and the returned error.  The error
variable is local to the call and is assigned only inside the function given to
`once.Do`, which runs on the first call only.  The handle is assigned to the
package variable by `db, err = sql.Open(...)`, before the table is created.  The
`ALTER TABLE ... ADD COLUMN cost_usd` that follows has its error dropped and
changes nothing here, rows having the column already; the result of
`recalculateAllCosts` is dropped as well. -/
def Init (env : Env) (disk : Disk) (st : State) : State × Option Error :=
  if st.once then (st, none)
  else
    let st := { st with once := true }
    match disk.mkdirAll with
    | some e => (st, some e)
    | none =>
      match disk.sqlOpen with
      | some e => ({ st with db := none }, some e)
      | none =>
        match disk.createTable with
        | some e => ({ st with db := some ⟨disk.usage_logs⟩ }, some e)
        | none =>
          ((recalculateAllCosts env disk.commit
            { st with db := some ⟨some (disk.usage_logs.getD [])⟩ }).1, none)

/-! ## Aggregates -/

/-- The Go struct `UsageTrend`. -/
structure UsageTrend where
  Bucket : String
  Requests : Int
  Failures : Int
  Tokens : Int
  Cost : ℚ
  deriving DecidableEq

/-- The Go struct `GlobalStats`. -/
structure GlobalStats where
  TotalRequests : Int
  TotalTokens : Int
  SuccessCount : Int
  FailureCount : Int
  TotalCost : ℚ
  deriving DecidableEq

/-- The Go struct `ModelAggStats`. -/
structure ModelAggStats where
  Model : String
  TotalRequests : Int
  TotalTokens : Int
  deriving DecidableEq

/-- The result column `COALESCE(strftime(format, timestamp), '0') as bucket`. -/
def bucket (env : Env) (format : String) (r : Row) : String :=
  (r.timestamp.bind (env.strftime format)).getD "0"

/-- The result row of `GetUsageTrends` for the group with bucket label `b`. -/
def trendOf (env : Env) (format : String) (t : Table) (b : String) : Except Error UsageTrend :=
  let group := t.filter fun r => bucket env format r = b
  match sumInt64 (group.map Row.total_tokens) with
  | .error e => .error e
  | .ok tokens =>
    .ok { Bucket := b
          Requests := group.length
          Failures := sumCase (fun r => r.is_failure == some true) group
          Tokens := tokens.getD 0
          Cost := (sumReal (group.map Row.cost_usd)).getD 0 }

/-- The strftime format chosen from `groupBy`. -/
def trendFormat (groupBy : String) : String :=
  if groupBy = "hour" then "%Y-%m-%d %H:00" else "%Y-%m-%d"

/-- The bucket labels of the table in the order of `ORDER BY bucket DESC`. -/
def bucketsDesc (env : Env) (format : String) (t : Table) : List String :=
  ((t.map (bucket env format)).dedup).insertionSort (fun a b => b ≤ a)

/-- Function `GetUsageTrends`.  The groups come out in descending bucket order
and the statement stops after `limit` of them, so only those are aggregated;
the slice is then reversed. -/
def GetUsageTrends (env : Env) (st : State) (groupBy : String) (limit : Int) :
    Except Error (List UsageTrend) :=
  withTable st fun t =>
    let format := trendFormat groupBy
    let buckets := bucketsDesc env format t
    let selected := if limit < 0 then buckets else buckets.take limit.toNat
    match collect (trendOf env format t) selected with
    | .error e => .error e
    | .ok trends => .ok trends.reverse

/-- Function `GetGlobalStats`. -/
def GetGlobalStats (st : State) : Except Error GlobalStats :=
  withTable st fun t =>
    match sumInt64 (t.map Row.total_tokens) with
    | .error e => .error e
    | .ok tokens =>
      .ok { TotalRequests := t.length
            TotalTokens := tokens.getD 0
            SuccessCount := sumCase (fun r => r.is_failure == some false) t
            FailureCount := sumCase (fun r => r.is_failure == some true) t
            TotalCost := (sumReal (t.map Row.cost_usd)).getD 0 }

/-- The result row of `GetAggregatedModelStats` for the group of rows whose
`model` column is `k`.  `GROUP BY model` names the table column, so NULL, the
empty text and every other text are groups of their own; `COALESCE(model,
'unknown')` only changes what the NULL group is called. -/
def modelStatsOf (t : Table) (k : Option String) : Except Error ModelAggStats :=
  let group := t.filter fun r => r.model = k
  match sumInt64 (group.map Row.total_tokens) with
  | .error e => .error e
  | .ok tokens =>
    .ok { Model := k.getD "unknown"
          TotalRequests := group.length
          TotalTokens := tokens.getD 0 }

/-- The values of column `model` in group order: NULL first, then ascending. -/
def modelKeys (t : Table) : List (Option String) :=
  ((t.map Row.model).dedup).insertionSort nullsFirstLe

/-- Function `GetAggregatedModelStats`. -/
def GetAggregatedModelStats (st : State) : Except Error (List ModelAggStats) :=
  withTable st fun t =>
    match collect (modelStatsOf t) (modelKeys t) with
    | .error e => .error e
    | .ok stats => .ok (stats.insertionSort fun a b => b.TotalRequests ≤ a.TotalRequests)

/-- The condition `timestamp >= datetime('now', modifier)`: not true when either
side is NULL. -/
def sinceNow (env : Env) (now : Int) (modifier : String) (r : Row) : Bool :=
  match r.timestamp, env.datetime now modifier with
  | some ts, some boundary => decide (boundary ≤ ts)
  | _, _ => false

/-- The expression `CASE WHEN timestamp >= datetime('now', modifier) THEN cost_usd ELSE 0 END`. -/
def costSince (env : Env) (now : Int) (modifier : String) (r : Row) : Option ℚ :=
  if sinceNow env now modifier r then r.cost_usd else some 0

/-- Function `GetPeriodCosts`, the statement running at instant `now`: the
triple `(cost24h, cost7d, costTotal)`. -/
def GetPeriodCosts (env : Env) (now : Int) (st : State) : Except Error (ℚ × ℚ × ℚ) :=
  withTable st fun t =>
    .ok ((sumReal (t.map (costSince env now "-1 day"))).getD 0,
         (sumReal (t.map (costSince env now "-7 days"))).getD 0,
         (sumReal (t.map Row.cost_usd)).getD 0)

/-- Equality of results is decidable whenever it is for errors and values. -/
instance {ε α : Type} [DecidableEq ε] [DecidableEq α] : DecidableEq (Except ε α) :=
  fun a b =>
    match a, b with
    | .ok x, .ok y => if h : x = y then isTrue (by rw [h]) else isFalse (fun h2 => h (by cases h2; rfl))
    | .error x, .error y =>
      if h : x = y then isTrue (by rw [h]) else isFalse (fun h2 => h (by cases h2; rfl))
    | .ok _, .error _ => isFalse (fun h => by cases h)
    | .error _, .ok _ => isFalse (fun h => by cases h)

/-! ## Notions used to state the results -/

/-- A sequence of `InsertUsageLog` calls, the returned errors dropped. -/
def insertAll (env : Env) : State → List UsageLog → State
  | st, [] => st
  | st, log :: rest => insertAll env (InsertUsageLog env st log).1 rest

/-- A database file that does not exist yet, every start-up step succeeding. -/
def Disk.fresh : Disk := ⟨none, none, none, none, none⟩

/-- The table after a sequence of `InsertUsageLog` calls on table `t`. -/
def insertRows (env : Env) : Table → List UsageLog → Table
  | t, [] => t
  | t, log :: rest => insertRows env (t ++ [insertedRow env t log]) rest

/-- Method `Time.Truncate(time.Second)`: the fraction of the second dropped. -/
def Time.truncateSecond (t : Time) : Time := { t with nsec := 0 }

/-- The record read back for a record inserted into table `t`: the record with
the id given by storage, its time in UTC at whole seconds, and the cost that was
stored. -/
def readBack (env : Env) (t : Table) (log : UsageLog) : UsageLog :=
  { log with
    ID := nextId t
    Timestamp := log.Timestamp.UTC.truncateSecond
    CostUSD :=
      if log.CostUSD = 0 then env.CalculateCost log.Model log.InputTokens log.OutputTokens
      else log.CostUSD }

/-- The relation of C2 as stated: `l` equals `log` in every field other than `ID`
and `Timestamp`. -/
def sameExceptIdAndTime (l log : UsageLog) : Prop :=
  { l with ID := log.ID, Timestamp := log.Timestamp } = log

/-- What one run of the back-fill leaves of a row: the cost recomputed when the
row could be scanned, the row untouched otherwise. -/
def backfilled (env : Env) (r : Row) : Row :=
  match backfillScan r with
  | some (_, model, input, output) =>
    { r with cost_usd := some (env.CalculateCost model input output) }
  | none => r

/-- The cost that the loop of `recalculateAllCosts` over the rows `s` leaves on
the rows with the given id: that of the last row of `s` with this id that could
be scanned. -/
def lastCost (env : Env) : List Row → Int → Option ℚ
  | [], _ => none
  | r :: rest, id =>
    match lastCost env rest id with
    | some c => some c
    | none =>
      match backfillScan r with
      | some (rid, model, input, output) =>
        if id = rid then some (env.CalculateCost model input output) else none
      | none => none

/-! ## Sample values

Concrete collaborators, records and tables on which the results are evaluated. -/

/-- Sample collaborators.  `gpt-4` with 100 input and 50 output tokens costs
0.0045, everything else 0.002.  The time functions know the first two seconds
of the epoch and a query made at the epoch, and answer as Go and SQLite do
there. -/
def sampleEnv : Env where
  CalculateCost := fun model input output =>
    if model = "gpt-4" ∧ input = 100 ∧ output = 50 then 45 / 10000 else 2 / 1000
  layout := fun s => if s = 0 then "1970-01-01 00:00:00" else "1970-01-01 00:00:01"
  parseTime := fun s =>
    if s = "1970-01-01 00:00:00" then some ⟨0, 0, 0⟩
    else if s = "1970-01-01 00:00:01" then some ⟨1, 0, 0⟩
    else none
  strftime := fun format ts =>
    if ts = "1970-01-01 00:00:00" ∨ ts = "1970-01-01 00:00:01" then
      if format = "%Y-%m-%d" then some "1970-01-01"
      else if format = "%Y-%m-%d %H:00" then some "1970-01-01 00:00"
      else none
    else none
  datetime := fun now modifier =>
    if now = 0 ∧ modifier = "-1 day" then some "1969-12-31 00:00:00"
    else if now = 0 ∧ modifier = "-7 days" then some "1969-12-25 00:00:00"
    else none

/-- A record of the scenario of the specification, its cost left unset. -/
def sampleLog : UsageLog :=
  { ID := 0
    Timestamp := ⟨0, 500, 0⟩
    APIKey := "key"
    Model := "gpt-4"
    InputTokens := 100
    OutputTokens := 50
    TotalTokens := 150
    IsFailure := false
    Source := "cli"
    DurationMs := 12
    PromptText := "hi"
    CompletionText := "ho"
    CostUSD := 0 }

/-- A failed request, one second after `sampleLog`. -/
def sampleFailure : UsageLog := { sampleLog with IsFailure := true, Timestamp := ⟨1, 0, 0⟩ }

/-- A record whose token total is `2 ^ 62`. -/
def hugeLog : UsageLog := { sampleLog with TotalTokens := 2 ^ 62 }

/-- The row written for `sampleLog` into an empty table. -/
def sampleRow : Row := insertedRow sampleEnv [] sampleLog

/-- A row whose model is NULL and whose cost is 5. -/
def nullModelRow : Row := { sampleRow with model := none, cost_usd := some 5 }

/-- A row whose model is the empty text. -/
def emptyModelRow : Row := { sampleRow with model := some "" }

/-- The table after three successful `gpt-4` requests and a failed one. -/
def sampleTable : Table := insertRows sampleEnv [] [sampleLog, sampleLog, sampleLog, sampleFailure]

/-- The table after two requests whose token total is `2 ^ 62`. -/
def hugeTable : Table := insertRows sampleEnv [] [hugeLog, hugeLog]

/-! # Results -/

/-! ## The scanning loop -/

theorem collect_ok_iff {α β : Type} (f : α → Except Error β) (l : List α) (bs : List β) :
    collect f l = .ok bs ↔ List.Forall₂ (fun a b => f a = .ok b) l bs := by
  induction l generalizing bs with
  | nil =>
    cases bs <;> simp [collect]
  | cons a rest ih =>
    cases hfa : f a with
    | error e => simp [collect, hfa]; intro h; cases h; simp_all
    | ok b =>
      cases hr : collect f rest with
      | error e =>
        simp only [collect, hfa, hr]
        constructor
        · intro h; cases h
        · intro h
          cases h with
          | cons h1 h2 =>
            have := (ih _).2 h2
            rw [hr] at this; cases this
      | ok bs' =>
        simp only [collect, hfa, hr]
        constructor
        · intro h
          cases h
          exact List.Forall₂.cons hfa ((ih _).1 hr)
        · intro h
          cases h with
          | cons h1 h2 =>
            have h3 := (ih _).2 h2
            rw [hr] at h3
            rw [hfa] at h1
            cases h1; cases h3; rfl

theorem collect_ok_of_forall {α β : Type} (f : α → Except Error β) (l : List α)
    (h : ∀ a ∈ l, ∃ b, f a = .ok b) : ∃ bs, collect f l = .ok bs := by
  induction l with
  | nil => exact ⟨[], rfl⟩
  | cons a rest ih =>
    obtain ⟨b, hb⟩ := h a (List.mem_cons_self _ _)
    obtain ⟨bs, hbs⟩ := ih (fun x hx => h x (List.mem_cons_of_mem _ hx))
    exact ⟨b :: bs, by simp [collect, hb, hbs]⟩

theorem collect_error_of_head {α β : Type} (f : α → Except Error β) (a : α) (rest : List α)
    (e : Error) (h : f a = .error e) : collect f (a :: rest) = .error e := by
  simp [collect, h]

theorem insertionSort_ne_nil {α : Type} (r : α → α → Prop) [DecidableRel r] (l : List α)
    (h : l ≠ []) : l.insertionSort r ≠ [] := by
  intro hs
  have := (List.perm_insertionSort r l).length_eq
  rw [hs] at this
  cases l with
  | nil => exact h rfl
  | cons a t => simp at this

/-! ## Start-up failures (C10) -/

/-- C10, evaluated where the claim breaks.  Let `MkdirAll` and `sql.Open`
succeed and the `CREATE TABLE` batch fail with `e` on a file without the table.
The first `Init` returns `e`, but a second `Init` returns no error, the handle
stays published, and `GetGlobalStats` and `InsertUsageLog` run against it: they
report the missing table, not "database not initialized".  A second `Init` also
returns no error when the first one failed in `MkdirAll`. -/
theorem Init_failure_is_not_reported_again (env : Env) (e : Error) (o ct c : Option Error)
    (found : Option Table) (log : UsageLog) :
    (Init env ⟨none, none, some e, none, c⟩ State.start).2 = some e ∧
    (Init env ⟨none, none, some e, none, c⟩
      (Init env ⟨none, none, some e, none, c⟩ State.start).1).2 = none ∧
    (Init env ⟨none, none, some e, none, c⟩ State.start).1.db = some ⟨none⟩ ∧
    GetGlobalStats (Init env ⟨none, none, some e, none, c⟩ State.start).1 =
      .error .noSuchTable ∧
    (InsertUsageLog env (Init env ⟨none, none, some e, none, c⟩ State.start).1 log).2 =
      some .noSuchTable ∧
    (Init env ⟨some e, o, ct, found, c⟩ State.start).2 = some e ∧
    (Init env ⟨some e, o, ct, found, c⟩
      (Init env ⟨some e, o, ct, found, c⟩ State.start).1).2 = none :=
  ⟨rfl, rfl, rfl, rfl, rfl, rfl, rfl⟩

/-! ## `GetAllActivity` against `GetRecentActivity` (C3) -/

theorem scanUsageLog_allColumns (env : Env) (r : Row) :
    scanUsageLog env (allColumns r) = .error (.scanArity 12 13) := rfl

/-- C3, evaluated where the claim breaks.  Whenever at least one row passes the
filters, `GetAllActivity` returns the `Scan` error for thirteen destinations
against twelve selected columns, and no records. -/
theorem GetAllActivity_fails_when_a_row_matches (env : Env) (t : Table) (once : Bool)
    (modelFilter statusFilter : String)
    (h : ∃ r ∈ t, whereClause modelFilter statusFilter r = true) :
    GetAllActivity env ⟨some ⟨some t⟩, once⟩ modelFilter statusFilter =
      .error (.scanArity 12 13) := by
  obtain ⟨r, hr, hw⟩ := h
  have hne : t.filter (whereClause modelFilter statusFilter) ≠ [] := by
    intro h0
    have : r ∈ t.filter (whereClause modelFilter statusFilter) := List.mem_filter.2 ⟨hr, hw⟩
    rw [h0] at this
    cases this
  have hs := insertionSort_ne_nil (fun a b : Row => nullsFirstLe b.timestamp a.timestamp) _ hne
  unfold GetAllActivity withTable orderByTimestampDesc
  simp only
  cases hl : List.insertionSort (fun a b : Row => nullsFirstLe b.timestamp a.timestamp)
      (t.filter (whereClause modelFilter statusFilter)) with
  | nil => exact absurd hl hs
  | cons a rest =>
    exact collect_error_of_head _ _ _ _ (scanUsageLog_allColumns env a)

/-! ## Global statistics after a sequence of inserts (C1) -/

theorem Init_fresh (env : Env) :
    (Init env Disk.fresh State.start).1 = ⟨some ⟨some []⟩, true⟩ := rfl

theorem insertAll_table (env : Env) (t : Table) (once : Bool) (logs : List UsageLog) :
    insertAll env ⟨some ⟨some t⟩, once⟩ logs = ⟨some ⟨some (insertRows env t logs)⟩, once⟩ := by
  induction logs generalizing t with
  | nil => rfl
  | cons log rest ih => simp only [insertAll, InsertUsageLog, insertRows]; exact ih _

theorem insertRows_length (env : Env) (t : Table) (logs : List UsageLog) :
    (insertRows env t logs).length = t.length + logs.length := by
  induction logs generalizing t with
  | nil => simp [insertRows]
  | cons log rest ih => simp [insertRows, ih]; omega

theorem insertRows_total_tokens (env : Env) (t : Table) (logs : List UsageLog) :
    (insertRows env t logs).map Row.total_tokens =
      t.map Row.total_tokens ++ logs.map (fun l => some l.TotalTokens) := by
  induction logs generalizing t with
  | nil => simp [insertRows]
  | cons log rest ih => simp [insertRows, ih, insertedRow]

theorem insertRows_is_failure (env : Env) (t : Table) (logs : List UsageLog)
    (h : ∀ r ∈ t, r.is_failure ≠ none) : ∀ r ∈ insertRows env t logs, r.is_failure ≠ none := by
  induction logs generalizing t with
  | nil => simpa [insertRows] using h
  | cons log rest ih =>
    apply ih
    intro r hr
    rcases List.mem_append.1 hr with h1 | h1
    · exact h r h1
    · simp at h1; subst h1; simp [insertedRow]

theorem length_eq_success_add_failure (t : Table) (h : ∀ r ∈ t, r.is_failure ≠ none) :
    (t.length : Int) = sumCase (fun r => r.is_failure == some false) t +
      sumCase (fun r => r.is_failure == some true) t := by
  induction t with
  | nil => simp [sumCase]
  | cons r rest ih =>
    have hr := h r (List.mem_cons_self _ _)
    have ih' := ih (fun x hx => h x (List.mem_cons_of_mem _ hx))
    unfold sumCase at ih' ⊢
    cases hf : r.is_failure with
    | none => exact absurd hf hr
    | some b =>
      cases b <;> simp [List.filter, hf] <;> omega

/-- C1, amended.  Start from a successful `Init` on a new database file and call
`InsertUsageLog` for each record of `logs`.  If SQLite's running sum of the
records' `TotalTokens` stays within the signed 64-bit range, `GetGlobalStats`
succeeds, `TotalRequests = SuccessCount + FailureCount`, and `TotalRequests` is
the number of rows of `usage_logs`, which is the number of inserted records. -/
theorem GetGlobalStats_after_inserts (env : Env) (logs : List UsageLog)
    (h : ∃ v, sumInt64 (logs.map fun l => some l.TotalTokens) = .ok v) :
    ∃ t s, (insertAll env (Init env Disk.fresh State.start).1 logs).db = some ⟨some t⟩ ∧
      t.length = logs.length ∧
      GetGlobalStats (insertAll env (Init env Disk.fresh State.start).1 logs) = .ok s ∧
      s.TotalRequests = s.SuccessCount + s.FailureCount ∧
      s.TotalRequests = t.length := by
  obtain ⟨v, hv⟩ := h
  rw [Init_fresh, insertAll_table]
  have hg : GetGlobalStats ⟨some ⟨some (insertRows env [] logs)⟩, true⟩ =
      .ok { TotalRequests := (insertRows env [] logs).length
            TotalTokens := v.getD 0
            SuccessCount := sumCase (fun r => r.is_failure == some false) (insertRows env [] logs)
            FailureCount := sumCase (fun r => r.is_failure == some true) (insertRows env [] logs)
            TotalCost := (sumReal ((insertRows env [] logs).map Row.cost_usd)).getD 0 } := by
    simp only [GetGlobalStats, withTable, insertRows_total_tokens, List.map_nil, List.nil_append, hv]
  refine ⟨insertRows env [] logs, _, rfl, by simp [insertRows_length], hg, ?_, ?_⟩
  · exact length_eq_success_add_failure _ (insertRows_is_failure env [] logs (by simp))
  · rfl

/-- The amended C1 at one inserted record. -/
theorem GetGlobalStats_after_inserts_witness :
    (∃ v, sumInt64 ([sampleLog].map fun l => some l.TotalTokens) = .ok v) ∧
    ∃ t s, (insertAll sampleEnv (Init sampleEnv Disk.fresh State.start).1 [sampleLog]).db =
        some ⟨some t⟩ ∧
      t.length = [sampleLog].length ∧
      GetGlobalStats (insertAll sampleEnv (Init sampleEnv Disk.fresh State.start).1 [sampleLog]) =
        .ok s ∧
      s.TotalRequests = s.SuccessCount + s.FailureCount ∧
      s.TotalRequests = t.length :=
  ⟨⟨some 150, rfl⟩, GetGlobalStats_after_inserts sampleEnv [sampleLog] ⟨some 150, rfl⟩⟩

/-- C1 fails as stated: after inserting two records whose `TotalTokens` is
`2 ^ 62` into a new database, `GetGlobalStats` does not succeed; the statement
fails with SQLite's "integer overflow" in `SUM(total_tokens)`. -/
theorem GetGlobalStats_overflow :
    GetGlobalStats (insertAll sampleEnv (Init sampleEnv Disk.fresh State.start).1
      [hugeLog, hugeLog]) = .error .integerOverflow := by
  rfl

/-! ## Reading back an inserted record (C2) -/

theorem collect_mem {α β : Type} (f : α → Except Error β) (l : List α) (bs : List β)
    (h : collect f l = .ok bs) (a : α) (ha : a ∈ l) : ∃ b ∈ bs, f a = .ok b := by
  have h2 := (collect_ok_iff f l bs).1 h
  clear h
  induction h2 with
  | nil => cases ha
  | cons hab _ ih =>
    rcases List.mem_cons.1 ha with h1 | h1
    · subst h1; exact ⟨_, List.mem_cons_self _ _, hab⟩
    · obtain ⟨b, hb, hfb⟩ := ih h1
      exact ⟨b, List.mem_cons_of_mem _ hb, hfb⟩

theorem collect_mem_inv {α β : Type} (f : α → Except Error β) (l : List α) (bs : List β)
    (h : collect f l = .ok bs) (b : β) (hb : b ∈ bs) : ∃ a ∈ l, f a = .ok b := by
  have h2 := (collect_ok_iff f l bs).1 h
  clear h
  induction h2 with
  | nil => cases hb
  | cons hab _ ih =>
    rcases List.mem_cons.1 hb with h1 | h1
    · subst h1; exact ⟨_, List.mem_cons_self _ _, hab⟩
    · obtain ⟨a, ha, hfa⟩ := ih h1
      exact ⟨a, List.mem_cons_of_mem _ ha, hfa⟩

theorem whereClause_no_filter (r : Row) : whereClause "" "" r = true := by
  simp [whereClause]

theorem filter_no_filter (t : Table) : t.filter (whereClause "" "") = t := by
  rw [List.filter_eq_self]
  intro r _
  exact whereClause_no_filter r

theorem limitOffset_all {α : Type} (limit : Int) (l : List α) (h : (l.length : Int) ≤ limit) :
    limitOffset limit 0 l = l := by
  unfold limitOffset
  have h0 : ¬ limit < 0 := by omega
  simp only [Int.toNat_zero, List.drop_zero, h0, if_false]
  apply List.take_of_length_le
  omega

theorem orderByTimestampDesc_perm (l : List Row) : (orderByTimestampDesc l).Perm l :=
  List.perm_insertionSort _ l

theorem scan_insertedRow (env : Env) (t : Table) (log : UsageLog)
    (hcodec : env.parseTime (log.Timestamp.UTC.Format env) =
      some log.Timestamp.UTC.truncateSecond) :
    scanUsageLog env (recentColumns (insertedRow env t log)) = .ok (readBack env t log) := by
  cases hf : log.IsFailure <;>
  simp [scanUsageLog, recentColumns, activityColumns, insertedRow, coalesce, Value.ofText,
    Value.ofInt, Value.ofBool, Value.ofReal, column, scanInt64, scanTime, scanString, scanBool,
    scanFloat64, hcodec, readBack, hf, bind, Except.bind, pure, Except.pure]

/-- C2, amended.  Let every row already in the table be one that `Scan` accepts,
and let the driver decode the text written for the record's time back to that
time in UTC at whole seconds.  After `InsertUsageLog(r)`, which succeeds,
`GetRecentActivity(limit, 0, "", "")` with `limit` at least the number of rows
succeeds and contains `r` with `ID` the id given by storage, `Timestamp` in UTC
truncated to the second, and `CostUSD` the stored cost: `r.CostUSD` when that is
nonzero, else `pricing.CalculateCost(r.Model, r.InputTokens, r.OutputTokens)`.
Every other field is that of `r`. -/
theorem GetRecentActivity_contains_inserted (env : Env) (t : Table) (once : Bool)
    (log : UsageLog) (limit : Int)
    (hrows : ∀ r ∈ t, ∃ l, scanUsageLog env (recentColumns r) = .ok l)
    (hcodec : env.parseTime (log.Timestamp.UTC.Format env) =
      some log.Timestamp.UTC.truncateSecond)
    (hlimit : (t.length : Int) + 1 ≤ limit) :
    (InsertUsageLog env ⟨some ⟨some t⟩, once⟩ log).2 = none ∧
    ∃ logs, GetRecentActivity env (InsertUsageLog env ⟨some ⟨some t⟩, once⟩ log).1
        limit 0 "" "" = .ok logs ∧
      readBack env t log ∈ logs := by
  refine ⟨rfl, ?_⟩
  have hperm := orderByTimestampDesc_perm (t ++ [insertedRow env t log])
  have hlen : ((orderByTimestampDesc (t ++ [insertedRow env t log])).length : Int) ≤ limit := by
    rw [hperm.length_eq]; simp; omega
  have hq : GetRecentActivity env (InsertUsageLog env ⟨some ⟨some t⟩, once⟩ log).1 limit 0 "" "" =
      collect (scanUsageLog env)
        ((orderByTimestampDesc (t ++ [insertedRow env t log])).map recentColumns) := by
    simp only [GetRecentActivity, InsertUsageLog, withTable, filter_no_filter,
      limitOffset_all _ _ hlen]
  rw [hq]
  have hall : ∀ cols ∈ (orderByTimestampDesc (t ++ [insertedRow env t log])).map recentColumns,
      ∃ l, scanUsageLog env cols = .ok l := by
    intro cols hc
    obtain ⟨r, hr, rfl⟩ := List.mem_map.1 hc
    rcases List.mem_append.1 (hperm.mem_iff.1 hr) with h1 | h1
    · exact hrows r h1
    · simp at h1; subst h1; exact ⟨_, scan_insertedRow env t log hcodec⟩
  obtain ⟨logs, hlogs⟩ := collect_ok_of_forall _ _ hall
  refine ⟨logs, hlogs, ?_⟩
  have hin : recentColumns (insertedRow env t log) ∈
      (orderByTimestampDesc (t ++ [insertedRow env t log])).map recentColumns :=
    List.mem_map_of_mem _ (hperm.mem_iff.2 (by simp))
  obtain ⟨b, hb, hfb⟩ := collect_mem _ _ _ hlogs _ hin
  rw [scan_insertedRow env t log hcodec] at hfb
  cases hfb
  exact hb

/-- The amended C2 at `sampleLog` inserted into an empty table. -/
theorem GetRecentActivity_contains_inserted_witness :
    (InsertUsageLog sampleEnv ⟨some ⟨some []⟩, true⟩ sampleLog).2 = none ∧
    ∃ logs, GetRecentActivity sampleEnv (InsertUsageLog sampleEnv ⟨some ⟨some []⟩, true⟩
        sampleLog).1 10 0 "" "" = .ok logs ∧
      readBack sampleEnv [] sampleLog ∈ logs :=
  GetRecentActivity_contains_inserted sampleEnv [] true sampleLog 10
    (fun _ h => absurd h (List.not_mem_nil _)) rfl (by decide)

/-- C2 fails as stated: `sampleLog` has no cost set, the pricing function gives
0.0045 for it, and after `InsertUsageLog(sampleLog)` on an empty table no record
returned by `GetRecentActivity(10, 0, "", "")` equals `sampleLog` in every field
other than `ID` and `Timestamp`: the one record returned has `CostUSD` 0.0045. -/
theorem GetRecentActivity_cost_not_as_given :
    GetRecentActivity sampleEnv (InsertUsageLog sampleEnv ⟨some ⟨some []⟩, true⟩ sampleLog).1
      10 0 "" "" = .ok [readBack sampleEnv [] sampleLog] ∧
    (readBack sampleEnv [] sampleLog).CostUSD = 45 / 10000 ∧
    ¬ ∃ l ∈ returned (GetRecentActivity sampleEnv
        (InsertUsageLog sampleEnv ⟨some ⟨some []⟩, true⟩ sampleLog).1 10 0 "" ""),
      sameExceptIdAndTime l sampleLog := by
  have h1 : GetRecentActivity sampleEnv (InsertUsageLog sampleEnv ⟨some ⟨some []⟩, true⟩
      sampleLog).1 10 0 "" "" = .ok [readBack sampleEnv [] sampleLog] := rfl
  have h2 : (readBack sampleEnv [] sampleLog).CostUSD = 45 / 10000 := by
    simp [readBack, sampleLog, sampleEnv]
  refine ⟨h1, h2, ?_⟩
  rw [h1]
  rintro ⟨l, hl, hsame⟩
  simp only [returned, List.mem_singleton] at hl
  subst hl
  have h3 := congrArg UsageLog.CostUSD hsame
  simp only [] at h3
  rw [h2] at h3
  simp [sampleLog] at h3

/-- C3 at a table holding the one row written for `sampleLog`: the row passes
the empty filters, `GetAllActivity` fails, and `GetRecentActivity` with the same
filters returns the record. -/
theorem GetAllActivity_fails_when_a_row_matches_witness :
    (∃ r ∈ [sampleRow], whereClause "" "" r = true) ∧
    GetAllActivity sampleEnv ⟨some ⟨some [sampleRow]⟩, true⟩ "" "" =
      .error (.scanArity 12 13) ∧
    GetRecentActivity sampleEnv ⟨some ⟨some [sampleRow]⟩, true⟩ 10 0 "" "" =
      .ok [readBack sampleEnv [] sampleLog] :=
  ⟨⟨sampleRow, List.mem_singleton.2 rfl, rfl⟩,
    GetAllActivity_fails_when_a_row_matches sampleEnv [sampleRow] true "" ""
      ⟨sampleRow, List.mem_singleton.2 rfl, rfl⟩,
    rfl⟩

/-! ## Filters of `GetRecentActivity` (C6) -/

theorem column_ok {α : Type} (i : Nat) (o : Option α) (a : α) (h : column i o = .ok a) :
    o = some a := by
  cases o with
  | none => cases h
  | some b => cases h; rfl

theorem scanUsageLog_ok (env : Env) (c0 c1 c2 c3 c4 c5 c6 c7 c8 c9 c10 c11 c12 : Value)
    (l : UsageLog)
    (h : scanUsageLog env [c0, c1, c2, c3, c4, c5, c6, c7, c8, c9, c10, c11, c12] = .ok l) :
    scanString c3 = some l.Model ∧ scanBool c7 = some l.IsFailure := by
  simp only [scanUsageLog, bind, Except.bind, pure, Except.pure] at h
  repeat' (split at h <;> try cases h)
  exact ⟨column_ok _ _ _ (by assumption), column_ok _ _ _ (by assumption)⟩

theorem scanUsageLog_recentColumns (env : Env) (r : Row) (l : UsageLog)
    (h : scanUsageLog env (recentColumns r) = .ok l) :
    l.Model = r.model.getD "" ∧ r.is_failure = some l.IsFailure := by
  obtain ⟨hm, hf⟩ := scanUsageLog_ok env _ _ _ _ _ _ _ _ _ _ _ _ _ l h
  constructor
  · cases hr : r.model <;> simp [hr, Value.ofText, coalesce, scanString] at hm <;> simp [hm]
  · cases hr : r.is_failure with
    | none => simp [hr, Value.ofBool, scanBool] at hf
    | some b => cases b <;> simp [hr, Value.ofBool, scanBool] at hf <;> simp [← hf]

theorem whereClause_other_status (modelFilter statusFilter : String)
    (h1 : statusFilter ≠ "success") (h2 : statusFilter ≠ "failure") :
    whereClause modelFilter statusFilter = whereClause modelFilter "" := by
  funext r
  simp [whereClause, h1, h2]

theorem orderByTimestampDesc_singleton (r : Row) : orderByTimestampDesc [r] = [r] := rfl

/-- C6.  Every record returned by `GetRecentActivity(limit, offset, modelFilter,
statusFilter)` has `Model = modelFilter` unless `modelFilter` is empty, is not a
failure when `statusFilter` is "success" and is a failure when it is "failure".
A `statusFilter` other than "success" and "failure" gives the result of the
empty `statusFilter`.  On a table made of three successful and one failed
"gpt-4" rows, in any order, `GetRecentActivity(10, 0, "gpt-4", "failure")`
returns exactly the record of the failed row. -/
theorem GetRecentActivity_filters (env : Env) (st : State) (limit offset : Int)
    (modelFilter statusFilter : String) :
    (∀ l ∈ returned (GetRecentActivity env st limit offset modelFilter statusFilter),
      (modelFilter = "" ∨ l.Model = modelFilter) ∧
      (statusFilter = "success" → l.IsFailure = false) ∧
      (statusFilter = "failure" → l.IsFailure = true)) ∧
    (statusFilter ≠ "success" → statusFilter ≠ "failure" →
      GetRecentActivity env st limit offset modelFilter statusFilter =
        GetRecentActivity env st limit offset modelFilter "") ∧
    (∀ (t : Table) (once : Bool) (s1 s2 s3 f : Row) (l : UsageLog),
      t.Perm [s1, s2, s3, f] →
      s1.model = some "gpt-4" → s2.model = some "gpt-4" → s3.model = some "gpt-4" →
      f.model = some "gpt-4" →
      s1.is_failure = some false → s2.is_failure = some false → s3.is_failure = some false →
      f.is_failure = some true →
      scanUsageLog env (recentColumns f) = .ok l →
      GetRecentActivity env ⟨some ⟨some t⟩, once⟩ 10 0 "gpt-4" "failure" = .ok [l]) := by
  refine ⟨?_, ?_, ?_⟩
  · intro l hl
    unfold GetRecentActivity withTable at hl
    rcases st with ⟨db, once⟩
    cases db with
    | none => simp [returned] at hl
    | some h =>
      rcases h with ⟨tbl⟩
      cases tbl with
      | none => simp [returned] at hl
      | some t =>
        simp only at hl
        cases hc : collect (scanUsageLog env)
            ((limitOffset limit offset
              (orderByTimestampDesc (t.filter (whereClause modelFilter statusFilter)))).map
              recentColumns) with
        | error e => rw [hc] at hl; simp [returned] at hl
        | ok logs =>
          rw [hc] at hl
          simp only [returned] at hl
          obtain ⟨cols, hcols, hscan⟩ := collect_mem_inv _ _ _ hc l hl
          obtain ⟨r, hr, rfl⟩ := List.mem_map.1 hcols
          have hr2 : r ∈ orderByTimestampDesc (t.filter (whereClause modelFilter statusFilter)) := by
            unfold limitOffset at hr
            simp only at hr
            split at hr
            · exact List.mem_of_mem_drop hr
            · exact List.mem_of_mem_drop (List.mem_of_mem_take hr)
          have hr3 := (orderByTimestampDesc_perm _).mem_iff.1 hr2
          have hw := (List.mem_filter.1 hr3).2
          obtain ⟨hm, hf⟩ := scanUsageLog_recentColumns env r l hscan
          refine ⟨?_, ?_, ?_⟩
          · by_cases hmf : modelFilter = ""
            · exact Or.inl hmf
            · right
              simp [whereClause, hmf] at hw
              rw [hm, hw.1]; rfl
          · intro hs
            subst hs
            simp [whereClause, hf] at hw
            exact hw.2
          · intro hs
            subst hs
            simp [whereClause, hf] at hw
            exact hw.2
  · intro h1 h2
    unfold GetRecentActivity
    rw [whereClause_other_status modelFilter statusFilter h1 h2]
  · intro t once s1 s2 s3 f l hperm m1 m2 m3 mf f1 f2 f3 ff hscan
    have hfil : t.filter (whereClause "gpt-4" "failure") = [f] := by
      have hp := hperm.filter (whereClause "gpt-4" "failure")
      have : [s1, s2, s3, f].filter (whereClause "gpt-4" "failure") = [f] := by
        simp [List.filter, whereClause, m1, m2, m3, mf, f1, f2, f3, ff]
      rw [this] at hp
      exact List.perm_singleton.1 hp
    simp only [GetRecentActivity, withTable, hfil, orderByTimestampDesc_singleton]
    have : limitOffset 10 0 [f] = [f] := rfl
    rw [this]
    simp [collect, hscan]

/-- C6 on `sampleTable`: of the four `gpt-4` rows only the failed one is returned. -/
theorem GetRecentActivity_filters_witness :
    GetRecentActivity sampleEnv ⟨some ⟨some sampleTable⟩, true⟩ 10 0 "gpt-4" "failure" =
      .ok [{ sampleFailure with ID := 4, CostUSD := 45 / 10000 }] :=
  (GetRecentActivity_filters sampleEnv ⟨some ⟨some sampleTable⟩, true⟩ 10 0 "gpt-4"
    "failure").2.2 sampleTable true _ _ _ _ _ (List.Perm.refl _) rfl rfl rfl rfl rfl rfl rfl rfl rfl

/-! ## The stored cost (C8) -/

/-- C8.  `InsertUsageLog` on a table appends one row and returns no error.  The
row's `cost_usd` is `pricing.CalculateCost(r.Model, r.InputTokens,
r.OutputTokens)` when `r.CostUSD` is 0 and is `r.CostUSD` itself otherwise.  When
the pricing function gives 0.0045 for "gpt-4" with 100 input and 50 output
tokens, inserting a successful "gpt-4" record with those tokens, 150 total
tokens and no cost set into an empty table makes `GetGlobalStats` succeed with
`TotalCost` 0.0045. -/
theorem InsertUsageLog_stored_cost (env : Env) (t : Table) (once : Bool) (log : UsageLog) :
    (∃ row, InsertUsageLog env ⟨some ⟨some t⟩, once⟩ log =
        (⟨some ⟨some (t ++ [row])⟩, once⟩, none) ∧
      (log.CostUSD = 0 → row.cost_usd =
        some (env.CalculateCost log.Model log.InputTokens log.OutputTokens)) ∧
      (log.CostUSD ≠ 0 → row.cost_usd = some log.CostUSD)) ∧
    (log.Model = "gpt-4" → log.InputTokens = 100 → log.OutputTokens = 50 →
      log.TotalTokens = 150 → log.IsFailure = false → log.CostUSD = 0 →
      env.CalculateCost "gpt-4" 100 50 = 45 / 10000 →
      ∃ s, GetGlobalStats (InsertUsageLog env ⟨some ⟨some []⟩, once⟩ log).1 = .ok s ∧
        s.TotalCost = 45 / 10000) := by
  constructor
  · refine ⟨insertedRow env t log, rfl, ?_, ?_⟩
    · intro h; simp [insertedRow, h]
    · intro h; simp [insertedRow, h]
  · intro hm hi ho ht _ hc hp
    have hg : GetGlobalStats (InsertUsageLog env ⟨some ⟨some []⟩, once⟩ log).1 =
        .ok { TotalRequests := 1
              TotalTokens := 150
              SuccessCount := sumCase (fun r => r.is_failure == some false)
                [insertedRow env [] log]
              FailureCount := sumCase (fun r => r.is_failure == some true)
                [insertedRow env [] log]
              TotalCost := 45 / 10000 } := by
      simp [GetGlobalStats, InsertUsageLog, withTable, insertedRow, ht, hc, hm, hi, ho, hp,
        sumInt64, sumInt64From, inInt64, sumReal, sumRealFrom]
    exact ⟨_, hg, rfl⟩

/-- C8 at `sampleLog` and `sampleEnv`: the cost stored is 0.0045 and so is `TotalCost`. -/
theorem InsertUsageLog_stored_cost_witness :
    ∃ s, GetGlobalStats (InsertUsageLog sampleEnv ⟨some ⟨some []⟩, true⟩ sampleLog).1 = .ok s ∧
      s.TotalCost = 45 / 10000 :=
  (InsertUsageLog_stored_cost sampleEnv [] true sampleLog).2 rfl rfl rfl rfl rfl rfl
    (by simp [sampleEnv])

/-! ## Running the back-fill twice (C9) -/

theorem backfillLoop_eq_map (env : Env) (s : List Row) (t : Table) :
    backfillLoop env s t = t.map fun x =>
      match lastCost env s x.id with
      | some c => { x with cost_usd := some c }
      | none => x := by
  induction s generalizing t with
  | nil => simp [backfillLoop, lastCost]
  | cons r rest ih =>
    cases hr : backfillScan r with
    | none =>
      simp only [backfillLoop, hr, lastCost]
      rw [ih]
      apply List.map_congr_left
      intro x _
      cases lastCost env rest x.id <;> rfl
    | some q =>
      obtain ⟨rid, model, input, output⟩ := q
      simp only [backfillLoop, hr, lastCost]
      rw [ih, updateCost, List.map_map]
      apply List.map_congr_left
      intro x _
      simp only [Function.comp]
      by_cases hx : x.id = rid
      · simp only [hx, if_true]
        cases lastCost env rest rid <;> rfl
      · simp only [hx, if_false]
        cases lastCost env rest x.id <;> rfl

theorem lastCost_of_not_mem (env : Env) (s : List Row) (id : Int) (h : id ∉ s.map Row.id) :
    lastCost env s id = none := by
  induction s with
  | nil => rfl
  | cons r rest ih =>
    simp only [List.map_cons, List.mem_cons, not_or] at h
    simp only [lastCost, ih h.2]
    cases hr : backfillScan r with
    | none => rfl
    | some q =>
      obtain ⟨rid, model, input, output⟩ := q
      have : rid = r.id := by
        unfold backfillScan at hr
        split at hr <;> simp at hr
        exact hr.1.symm
      simp [this, h.1]

theorem backfillScan_id (r : Row) (rid : Int) (model : String) (input output : Int)
    (h : backfillScan r = some (rid, model, input, output)) : rid = r.id := by
  unfold backfillScan at h
  split at h <;> simp at h
  exact h.1.symm

theorem lastCost_of_mem (env : Env) (t : Table) (h : (t.map Row.id).Nodup) (x : Row)
    (hx : x ∈ t) :
    lastCost env t x.id =
      (backfillScan x).map fun q => env.CalculateCost q.2.1 q.2.2.1 q.2.2.2 := by
  induction t with
  | nil => cases hx
  | cons r rest ih =>
    simp only [List.map_cons, List.nodup_cons] at h
    rcases List.mem_cons.1 hx with h1 | h1
    · subst h1
      simp only [lastCost, lastCost_of_not_mem env rest x.id h.1]
      cases hr : backfillScan x with
      | none => rfl
      | some q =>
        obtain ⟨rid, model, input, output⟩ := q
        simp [backfillScan_id x rid model input output hr]
    · have hne : x.id ≠ r.id := by
        intro he
        exact h.1 (he ▸ List.mem_map_of_mem _ h1)
      simp only [lastCost, ih h.2 h1]
      cases hxs : backfillScan x with
      | some q => rfl
      | none =>
        simp only [Option.map_none']
        cases hr : backfillScan r with
        | none => rfl
        | some q =>
          obtain ⟨rid, model, input, output⟩ := q
          simp [backfillScan_id r rid model input output hr, hne]

theorem backfillLoop_self (env : Env) (t : Table) (h : (t.map Row.id).Nodup) :
    backfillLoop env t t = t.map (backfilled env) := by
  rw [backfillLoop_eq_map]
  apply List.map_congr_left
  intro x hx
  rw [lastCost_of_mem env t h x hx]
  unfold backfilled
  cases backfillScan x with
  | none => rfl
  | some q => rfl

theorem backfilled_id (env : Env) (r : Row) : (backfilled env r).id = r.id := by
  unfold backfilled
  split <;> rfl

theorem backfilled_backfilled (env : Env) (r : Row) :
    backfilled env (backfilled env r) = backfilled env r := by
  rcases r with ⟨id, ts, key, model, inp, out, tot, fail, src, dur, p, c, cost⟩
  cases model <;> cases inp <;> cases out <;> rfl

/-- C9, amended.  On a table whose ids are pairwise distinct, with both commits
succeeding, one run of `recalculateAllCosts` sets the cost of every row whose
`model`, `input_tokens` and `output_tokens` are all non-NULL to the pricing
function applied to them and leaves every other row as it was; it changes no
other column and not the number of rows; and a second run leaves the table as
the first run left it. -/
theorem recalculateAllCosts_twice (env : Env) (t : Table) (once : Bool)
    (hid : (t.map Row.id).Nodup) :
    recalculateAllCosts env none ⟨some ⟨some t⟩, once⟩ =
      (⟨some ⟨some (t.map (backfilled env))⟩, once⟩, none) ∧
    recalculateAllCosts env none (recalculateAllCosts env none ⟨some ⟨some t⟩, once⟩).1 =
      recalculateAllCosts env none ⟨some ⟨some t⟩, once⟩ ∧
    (t.map (backfilled env)).length = t.length ∧
    (∀ r : Row, { backfilled env r with cost_usd := r.cost_usd } = r) ∧
    (∀ (r : Row) (model : String) (input output : Int), r.model = some model →
      r.input_tokens = some input → r.output_tokens = some output →
      (backfilled env r).cost_usd = some (env.CalculateCost model input output)) ∧
    (∀ r : Row, r.model = none ∨ r.input_tokens = none ∨ r.output_tokens = none →
      backfilled env r = r) := by
  have h1 : recalculateAllCosts env none ⟨some ⟨some t⟩, once⟩ =
      (⟨some ⟨some (t.map (backfilled env))⟩, once⟩, none) := by
    simp only [recalculateAllCosts, backfillLoop_self env t hid]
  have hid2 : ((t.map (backfilled env)).map Row.id).Nodup := by
    rw [List.map_map]
    have : Row.id ∘ backfilled env = Row.id := funext (backfilled_id env)
    rw [this]; exact hid
  refine ⟨h1, ?_, by simp, ?_, ?_, ?_⟩
  · rw [h1]
    simp only [recalculateAllCosts, backfillLoop_self env _ hid2, List.map_map]
    have : backfilled env ∘ backfilled env = backfilled env :=
      funext (backfilled_backfilled env)
    rw [this]
  · intro r
    unfold backfilled
    split <;> rfl
  · intro r model input output hm hi ho
    simp [backfilled, backfillScan, hm, hi, ho]
  · intro r h
    rcases h with h | h | h <;> simp [backfilled, backfillScan, h]

/-- The amended C9 on `sampleTable`. -/
theorem recalculateAllCosts_twice_witness :
    (sampleTable.map Row.id).Nodup ∧
    recalculateAllCosts sampleEnv none
        (recalculateAllCosts sampleEnv none ⟨some ⟨some sampleTable⟩, true⟩).1 =
      recalculateAllCosts sampleEnv none ⟨some ⟨some sampleTable⟩, true⟩ :=
  ⟨by decide, (recalculateAllCosts_twice sampleEnv sampleTable true (by decide)).2.1⟩

/-- C9 fails as stated: on the table holding `nullModelRow` alone, whose model
is NULL and whose cost is 5, a run of `recalculateAllCosts` commits and leaves
the table as it was, so the cost of the row after the run is 5, which is not a
value of the pricing function. -/
theorem recalculateAllCosts_skips_null_model :
    recalculateAllCosts sampleEnv none ⟨some ⟨some [nullModelRow]⟩, true⟩ =
      (⟨some ⟨some [nullModelRow]⟩, true⟩, none) ∧
    nullModelRow.cost_usd = some 5 ∧
    ∀ (model : String) (input output : Int),
      some (sampleEnv.CalculateCost model input output) ≠ nullModelRow.cost_usd := by
  refine ⟨rfl, rfl, ?_⟩
  intro model input output h
  simp only [nullModelRow, Option.some.injEq] at h
  simp only [sampleEnv] at h
  split at h <;> norm_num at h

/-! ## Rolling-window costs (C5) -/

theorem sumRealFrom_getD (acc : Option ℚ) (xs : List (Option ℚ)) :
    (sumRealFrom acc xs).getD 0 = acc.getD 0 + (xs.map fun x => x.getD 0).sum := by
  induction xs generalizing acc with
  | nil => simp [sumRealFrom]
  | cons x rest ih =>
    cases x with
    | none => simp [sumRealFrom, ih]
    | some v => simp [sumRealFrom, ih, add_assoc]

theorem sumReal_getD (xs : List (Option ℚ)) :
    (sumReal xs).getD 0 = (xs.map fun x => x.getD 0).sum := by
  simp [sumReal, sumRealFrom_getD]

/-- C5.  Let every cost in the table be NULL or non-negative, and let SQLite's
`datetime('now', '-7 days')` not sort after `datetime('now', '-1 day')` at the
instant of the query.  Then `GetPeriodCosts` succeeds and its result satisfies
`cost24h ≤ cost7d ≤ costTotal`. -/
theorem GetPeriodCosts_monotone (env : Env) (now : Int) (t : Table) (once : Bool)
    (hcost : ∀ r ∈ t, ∀ c, r.cost_usd = some c → 0 ≤ c)
    (hbound : ∀ b1, env.datetime now "-1 day" = some b1 →
      ∃ b7, env.datetime now "-7 days" = some b7 ∧ b7 ≤ b1) :
    ∃ cost24h cost7d costTotal,
      GetPeriodCosts env now ⟨some ⟨some t⟩, once⟩ = .ok (cost24h, cost7d, costTotal) ∧
      cost24h ≤ cost7d ∧ cost7d ≤ costTotal := by
  refine ⟨_, _, _, rfl, ?_, ?_⟩
  · rw [sumReal_getD, sumReal_getD, List.map_map, List.map_map]
    apply List.sum_le_sum
    intro r hr
    simp only [Function.comp, costSince]
    have hnn : 0 ≤ r.cost_usd.getD 0 := by
      cases hc : r.cost_usd with
      | none => simp
      | some c => simpa using hcost r hr c hc
    by_cases h1 : sinceNow env now "-1 day" r = true
    · have h7 : sinceNow env now "-7 days" r = true := by
        unfold sinceNow at h1 ⊢
        cases hts : r.timestamp with
        | none => simp [hts] at h1
        | some ts =>
          cases hb : env.datetime now "-1 day" with
          | none => simp [hts, hb] at h1
          | some b1 =>
            obtain ⟨b7, hb7, hle⟩ := hbound b1 hb
            simp only [hts, hb, decide_eq_true_eq] at h1
            simp only [hb7, decide_eq_true_eq]
            exact le_trans hle h1
      simp [h1, h7]
    · by_cases h7 : sinceNow env now "-7 days" r = true
      · simp [h1, h7, hnn]
      · simp [h1, h7]
  · rw [sumReal_getD, sumReal_getD, List.map_map, List.map_map]
    apply List.sum_le_sum
    intro r hr
    simp only [Function.comp, costSince]
    have hnn : 0 ≤ r.cost_usd.getD 0 := by
      cases hc : r.cost_usd with
      | none => simp
      | some c => simpa using hcost r hr c hc
    by_cases h7 : sinceNow env now "-7 days" r = true
    · simp [h7]
    · simp [h7, hnn]

/-- C5 on the table holding `sampleRow`, queried at the epoch. -/
theorem GetPeriodCosts_monotone_witness :
    ∃ cost24h cost7d costTotal,
      GetPeriodCosts sampleEnv 0 ⟨some ⟨some [sampleRow]⟩, true⟩ =
        .ok (cost24h, cost7d, costTotal) ∧
      cost24h ≤ cost7d ∧ cost7d ≤ costTotal :=
  GetPeriodCosts_monotone sampleEnv 0 [sampleRow] true
    (by
      intro r hr c hc
      rw [List.mem_singleton.1 hr] at hc
      simp only [sampleRow, insertedRow, sampleLog, sampleEnv, Option.some.injEq] at hc
      rw [← hc]; norm_num)
    (by
      intro b1 hb
      refine ⟨"1969-12-25 00:00:00", rfl, ?_⟩
      have : b1 = "1969-12-31 00:00:00" := by
        simp only [sampleEnv] at hb
        exact (Option.some.inj hb).symm
      rw [this, String.le_iff_toList_le]
      decide)

/-! ## Day buckets of `GetUsageTrends` (C4) -/

theorem collect_map_eq {α β : Type} (f : α → Except Error β) (g : β → α) (l : List α)
    (bs : List β) (h : collect f l = .ok bs) (hg : ∀ a b, f a = .ok b → g b = a) :
    bs.map g = l := by
  have h2 := (collect_ok_iff f l bs).1 h
  clear h
  induction h2 with
  | nil => rfl
  | cons hab _ ih => simp [hg _ _ hab, ih]

theorem trendOf_bucket (env : Env) (format : String) (t : Table) (b : String) (u : UsageTrend)
    (h : trendOf env format t b = .ok u) : u.Bucket = b := by
  unfold trendOf at h
  simp only at h
  split at h
  · cases h
  · cases h; rfl

theorem bucketsDesc_perm (env : Env) (format : String) (t : Table) :
    (bucketsDesc env format t).Perm ((t.map (bucket env format)).dedup) :=
  List.perm_insertionSort _ _

theorem mem_bucketsDesc (env : Env) (format : String) (t : Table) (b : String) :
    b ∈ bucketsDesc env format t ↔ ∃ r ∈ t, bucket env format r = b := by
  rw [(bucketsDesc_perm env format t).mem_iff, List.mem_dedup, List.mem_map]

theorem bucketsDesc_sorted (env : Env) (format : String) (t : Table) :
    (bucketsDesc env format t).Pairwise (fun a b => b < a) := by
  have hs : (bucketsDesc env format t).Sorted (fun a b => b ≤ a) :=
    @List.sorted_insertionSort _ (fun a b : String => b ≤ a) _
      ⟨fun a b => le_total b a⟩ ⟨fun a b c h1 h2 => le_trans h2 h1⟩ _
  have hn : (bucketsDesc env format t).Nodup :=
    (bucketsDesc_perm env format t).nodup_iff.2 (List.nodup_dedup _)
  exact (List.Pairwise.and hs hn).imp (fun h => lt_of_le_of_ne h.1 (Ne.symm h.2))

/-- C4, amended.  Let no day bucket's running sum of `total_tokens` leave the
signed 64-bit range.  For every limit `N ≥ 0`, `GetUsageTrends("day", N)`
succeeds and returns at most `N` buckets; their labels are strictly ascending;
every returned label is the day label of some row; and a day label of the table
that is not returned is smaller than every returned label, in which case `N`
labels were returned.  So the labels returned are the `N` greatest distinct day
labels of the table, all of them when there are fewer than `N`. -/
theorem GetUsageTrends_day_buckets (env : Env) (t : Table) (once : Bool) (N : Int)
    (hN : 0 ≤ N)
    (hsum : ∀ b ∈ bucketsDesc env "%Y-%m-%d" t, ∃ v,
      sumInt64 ((t.filter fun r => bucket env "%Y-%m-%d" r = b).map Row.total_tokens) = .ok v) :
    ∃ trends, GetUsageTrends env ⟨some ⟨some t⟩, once⟩ "day" N = .ok trends ∧
      (trends.length : Int) ≤ N ∧
      (trends.map UsageTrend.Bucket).Pairwise (fun a b => a < b) ∧
      (∀ b ∈ trends.map UsageTrend.Bucket, ∃ r ∈ t, bucket env "%Y-%m-%d" r = b) ∧
      (∀ r ∈ t, bucket env "%Y-%m-%d" r ∈ trends.map UsageTrend.Bucket ∨
        ((trends.length : Int) = N ∧
          ∀ b ∈ trends.map UsageTrend.Bucket, bucket env "%Y-%m-%d" r < b)) := by
  have hfmt : trendFormat "day" = "%Y-%m-%d" := by decide
  have hlim : ¬ N < 0 := by omega
  have hall : ∀ b ∈ (bucketsDesc env "%Y-%m-%d" t).take N.toNat,
      ∃ u, trendOf env "%Y-%m-%d" t b = .ok u := by
    intro b hb
    obtain ⟨v, hv⟩ := hsum b (List.mem_of_mem_take hb)
    refine ⟨{ Bucket := b
              Requests := (t.filter fun r => bucket env "%Y-%m-%d" r = b).length
              Failures := sumCase (fun r => r.is_failure == some true)
                (t.filter fun r => bucket env "%Y-%m-%d" r = b)
              Tokens := v.getD 0
              Cost := (sumReal ((t.filter fun r => bucket env "%Y-%m-%d" r = b).map
                Row.cost_usd)).getD 0 }, ?_⟩
    simp only [trendOf, hv]
  obtain ⟨us, hus⟩ := collect_ok_of_forall _ _ hall
  have hmap : us.map UsageTrend.Bucket = (bucketsDesc env "%Y-%m-%d" t).take N.toNat :=
    collect_map_eq _ _ _ _ hus (fun a b h => trendOf_bucket env _ t a b h)
  have hlen : us.length = ((bucketsDesc env "%Y-%m-%d" t).take N.toNat).length := by
    rw [← hmap, List.length_map]
  have hsorted := bucketsDesc_sorted env "%Y-%m-%d" t
  refine ⟨us.reverse, ?_, ?_, ?_, ?_, ?_⟩
  · simp only [GetUsageTrends, withTable, hfmt, hlim, if_false, hus]
  · rw [List.length_reverse, hlen, List.length_take]
    have := min_le_left N.toNat (bucketsDesc env "%Y-%m-%d" t).length
    omega
  · rw [List.map_reverse, hmap, List.pairwise_reverse]
    exact hsorted.sublist (List.take_sublist _ _)
  · intro b hb
    rw [List.map_reverse, hmap, List.mem_reverse] at hb
    exact (mem_bucketsDesc env _ t b).1 (List.mem_of_mem_take hb)
  · intro r hr
    rw [List.map_reverse, hmap, List.length_reverse, hlen]
    have hmem : bucket env "%Y-%m-%d" r ∈ bucketsDesc env "%Y-%m-%d" t :=
      (mem_bucketsDesc env _ t _).2 ⟨r, hr, rfl⟩
    rw [← List.take_append_drop N.toNat (bucketsDesc env "%Y-%m-%d" t)] at hmem hsorted
    rcases List.mem_append.1 hmem with h1 | h1
    · exact Or.inl (List.mem_reverse.2 h1)
    · right
      constructor
      · have hd : (List.drop N.toNat (bucketsDesc env "%Y-%m-%d" t)).length ≠ 0 := by
          intro h0
          rw [List.length_eq_zero] at h0
          rw [h0] at h1
          cases h1
        rw [List.length_drop] at hd
        rw [List.length_take]
        have : min N.toNat (bucketsDesc env "%Y-%m-%d" t).length = N.toNat := by
          apply min_eq_left; omega
        rw [this]
        omega
      · intro b hb
        exact (List.pairwise_append.1 hsorted).2.2 b (List.mem_reverse.1 hb) _ h1

/-- The amended C4 on `sampleTable` with limit 1: its four rows fall on one day. -/
theorem GetUsageTrends_day_buckets_witness :
    ∃ trends, GetUsageTrends sampleEnv ⟨some ⟨some sampleTable⟩, true⟩ "day" 1 = .ok trends ∧
      (trends.length : Int) ≤ 1 ∧
      (trends.map UsageTrend.Bucket).Pairwise (fun a b => a < b) ∧
      (∀ b ∈ trends.map UsageTrend.Bucket, ∃ r ∈ sampleTable, bucket sampleEnv "%Y-%m-%d" r = b) ∧
      (∀ r ∈ sampleTable, bucket sampleEnv "%Y-%m-%d" r ∈ trends.map UsageTrend.Bucket ∨
        ((trends.length : Int) = 1 ∧
          ∀ b ∈ trends.map UsageTrend.Bucket, bucket sampleEnv "%Y-%m-%d" r < b)) :=
  GetUsageTrends_day_buckets sampleEnv sampleTable true 1 (by decide)
    (by
      intro b hb
      have hl : bucketsDesc sampleEnv "%Y-%m-%d" sampleTable = ["1970-01-01"] := by decide
      rw [hl, List.mem_singleton] at hb
      subst hb
      exact ⟨some 600, by decide⟩)

/-- C4 fails as stated: the two rows of `hugeTable` fall on the day
"1970-01-01" and their token totals add up to `2 ^ 63`, so
`GetUsageTrends("day", 1)` fails with SQLite's "integer overflow" and returns
no bucket, although the table has that day label. -/
theorem GetUsageTrends_day_overflow :
    GetUsageTrends sampleEnv ⟨some ⟨some hugeTable⟩, true⟩ "day" 1 = .error .integerOverflow ∧
    (∃ r ∈ hugeTable, bucket sampleEnv "%Y-%m-%d" r = "1970-01-01") ∧
    "1970-01-01" ∉ (returned (GetUsageTrends sampleEnv ⟨some ⟨some hugeTable⟩, true⟩
      "day" 1)).map UsageTrend.Bucket := by
  have h : GetUsageTrends sampleEnv ⟨some ⟨some hugeTable⟩, true⟩ "day" 1 =
      .error .integerOverflow := by decide
  refine ⟨h, ⟨insertedRow sampleEnv [] hugeLog, List.mem_cons_self _ _, by decide⟩, ?_⟩
  rw [h]
  simp [returned]

/-! ## Per-model statistics (C7) -/

theorem modelStatsOf_ok (t : Table) (k : Option String) (s : ModelAggStats)
    (h : modelStatsOf t k = .ok s) :
    s.Model = k.getD "unknown" ∧
      s.TotalRequests = ((t.filter fun r => r.model = k).length : Int) := by
  unfold modelStatsOf at h
  simp only at h
  split at h
  · cases h
  · cases h; exact ⟨rfl, rfl⟩

theorem modelKeys_perm (t : Table) : (modelKeys t).Perm ((t.map Row.model).dedup) :=
  List.perm_insertionSort _ _

theorem mem_modelKeys (t : Table) (k : Option String) :
    k ∈ modelKeys t ↔ ∃ r ∈ t, r.model = k := by
  rw [(modelKeys_perm t).mem_iff, List.mem_dedup, List.mem_map]

theorem collect_length {α β : Type} (f : α → Except Error β) (l : List α) (bs : List β)
    (h : collect f l = .ok bs) : bs.length = l.length :=
  ((collect_ok_iff f l bs).1 h).length_eq.symm

/-- C7, amended.  Let no model group's running sum of `total_tokens` leave the
signed 64-bit range.  `GetAggregatedModelStats` succeeds and returns one entry
for each distinct value of column `model`, NULL included, ordered by
`TotalRequests` descending.  The entry of a value counts exactly the rows with
that value and carries it as `Model`, the NULL group being labelled "unknown":
all rows whose model is NULL are counted in one entry labelled "unknown".  The
empty text is not renamed: an entry has an empty `Model` exactly when some row
has the empty text as its model, and it counts those rows. -/
theorem GetAggregatedModelStats_groups (t : Table) (once : Bool)
    (hsum : ∀ k ∈ modelKeys t, ∃ v,
      sumInt64 ((t.filter fun r => r.model = k).map Row.total_tokens) = .ok v) :
    ∃ stats, GetAggregatedModelStats ⟨some ⟨some t⟩, once⟩ = .ok stats ∧
      stats.Pairwise (fun a b => b.TotalRequests ≤ a.TotalRequests) ∧
      stats.length = ((t.map Row.model).dedup).length ∧
      (∀ s ∈ stats, ∃ k, (∃ r ∈ t, r.model = k) ∧ s.Model = k.getD "unknown" ∧
        s.TotalRequests = ((t.filter fun r => r.model = k).length : Int)) ∧
      (∀ k, (∃ r ∈ t, r.model = k) → ∃ s ∈ stats, s.Model = k.getD "unknown" ∧
        s.TotalRequests = ((t.filter fun r => r.model = k).length : Int)) ∧
      (∀ s ∈ stats, s.Model = "" → ∃ r ∈ t, r.model = some "") := by
  have hall : ∀ k ∈ modelKeys t, ∃ s, modelStatsOf t k = .ok s := by
    intro k hk
    obtain ⟨v, hv⟩ := hsum k hk
    refine ⟨{ Model := k.getD "unknown"
              TotalRequests := (t.filter fun r => r.model = k).length
              TotalTokens := v.getD 0 }, ?_⟩
    simp only [modelStatsOf, hv]
  obtain ⟨us, hus⟩ := collect_ok_of_forall _ _ hall
  have hperm : (us.insertionSort fun a b : ModelAggStats => b.TotalRequests ≤ a.TotalRequests).Perm
      us := List.perm_insertionSort _ _
  have hfrom : ∀ s ∈ us.insertionSort (fun a b : ModelAggStats =>
      b.TotalRequests ≤ a.TotalRequests),
      ∃ k, (∃ r ∈ t, r.model = k) ∧ s.Model = k.getD "unknown" ∧
        s.TotalRequests = ((t.filter fun r => r.model = k).length : Int) := by
    intro s hs
    obtain ⟨k, hk, hks⟩ := collect_mem_inv _ _ _ hus s (hperm.mem_iff.1 hs)
    exact ⟨k, (mem_modelKeys t k).1 hk, modelStatsOf_ok t k s hks⟩
  refine ⟨_, ?_, ?_, ?_, hfrom, ?_, ?_⟩
  · simp only [GetAggregatedModelStats, withTable, hus]
  · exact @List.sorted_insertionSort _
      (fun a b : ModelAggStats => b.TotalRequests ≤ a.TotalRequests) _
      ⟨fun a b => le_total b.TotalRequests a.TotalRequests⟩
      ⟨fun a b c h1 h2 => le_trans h2 h1⟩ _
  · rw [hperm.length_eq, collect_length _ _ _ hus, (modelKeys_perm t).length_eq]
  · intro k hk
    obtain ⟨s, hs, hks⟩ := collect_mem _ _ _ hus k ((mem_modelKeys t k).2 hk)
    exact ⟨s, hperm.mem_iff.2 hs, modelStatsOf_ok t k s hks⟩
  · intro s hs hempty
    obtain ⟨k, hk, hm, _⟩ := hfrom s hs
    cases k with
    | none => rw [hm] at hempty; exact absurd hempty (by decide)
    | some m =>
      rw [hm] at hempty
      simp only [Option.getD_some] at hempty
      rw [hempty] at hk
      exact hk

/-- The amended C7 on a table holding `nullModelRow` and `sampleRow`. -/
theorem GetAggregatedModelStats_groups_witness :
    ∃ stats, GetAggregatedModelStats ⟨some ⟨some [nullModelRow, sampleRow]⟩, true⟩ = .ok stats ∧
      ∃ s ∈ stats, s.Model = "unknown" ∧ s.TotalRequests = 1 := by
  obtain ⟨stats, h1, _, _, _, h5, _⟩ :=
    GetAggregatedModelStats_groups [nullModelRow, sampleRow] true
      (by
        intro k hk
        have hl : modelKeys [nullModelRow, sampleRow] = [none, some "gpt-4"] := by decide
        rw [hl] at hk
        simp only [List.mem_cons, List.mem_singleton, List.not_mem_nil, or_false] at hk
        rcases hk with rfl | rfl
        · exact ⟨some 150, by decide⟩
        · exact ⟨some 150, by decide⟩)
  obtain ⟨s, hs, hm, hc⟩ := h5 none ⟨nullModelRow, List.mem_cons_self _ _, rfl⟩
  exact ⟨stats, h1, s, hs, hm, hc⟩

/-- C7 fails as stated: on the table holding `emptyModelRow` alone, whose model
is the empty text, `GetAggregatedModelStats` returns one entry whose `Model` is
empty; the row is not counted under "unknown". -/
theorem GetAggregatedModelStats_empty_model :
    GetAggregatedModelStats ⟨some ⟨some [emptyModelRow]⟩, true⟩ =
      .ok [{ Model := "", TotalRequests := 1, TotalTokens := 150 }] := by
  decide

end Database
